import Mathlib

/-!
Shallow embedding of the calibration and alignment engine of `src/core/roi.py`
(together with the geometry value types of `src/core/geometry.py`).

Conventions of the embedding:
* numpy `uint8`/`float32`/`float64` arithmetic is modelled exactly over `ℚ`;
* a frame (`np.ndarray`) is a pair of dimensions together with a total pixel
  function; `None` frames are `Option.none`;
* Python exceptions are modelled with `Except String`, the string naming the
  exception that the source raises at that point;
* `uuid.uuid4()` identifiers play no role in any property below and are not
  modelled (fields that the source fills with a fresh uuid are left `""`).
-/

namespace PPSCDA

/-- Arithmetic mean of a list of rationals, `np.mean` on a 1-D array
(division by zero yields `0`, matching that callers only use nonempty lists). -/
def mean (l : List ℚ) : ℚ := l.sum / l.length

/-- Mean subtraction `signal - np.mean(signal)` used by `measure_vertical_offset`. -/
def meanSubtract (l : List ℚ) : List ℚ := l.map (fun x => x - mean l)

/-- Population variance `np.var`: mean of squared deviations. `np.std` is its
square root; since the square root of a rational is in general irrational, the
embedding passes the value of `np.std` around explicitly, characterised by
`IsStd` below. -/
def variance (l : List ℚ) : ℚ := ((l.map (fun x => (x - mean l) ^ 2)).sum) / l.length

/-- Characterisation of `np.std l = σ`: the unique nonnegative real with
`σ ^ 2 = variance l`.  Stated over `ℚ`; theorems that use it pick inputs or
quantify over signals whose standard deviation is rational. -/
def IsStd (l : List ℚ) (σ : ℚ) : Prop := 0 ≤ σ ∧ σ ^ 2 = variance l

/-- List lookup at a signed index, `0` outside the range.  Used to express the
zero-padded overlap of `np.correlate(..., mode=full)`. -/
def getZ (l : List ℚ) (i : ℤ) : ℚ :=
  if 0 ≤ i then l.getD i.toNat 0 else 0

/-- Full cross-correlation `np.correlate(a, v, mode=full)`: a list of length
`len a + len v - 1` whose entry `k` is `Σ_j a_j * v_(j + len v - 1 - k)`
(out-of-range factors are absent, i.e. zero).  For `a = [1,2,3]`,
`v = [0,1,1/2]` this reproduces numpy's documented example output
`[1/2, 2, 7/2, 3, 0]`. -/
def correlateFull (a v : List ℚ) : List ℚ :=
  (List.range (a.length + v.length - 1)).map (fun (k : ℕ) =>
    ((List.range a.length).map
      (fun (j : ℕ) => a.getD j 0 * getZ v ((j : ℤ) + (v.length : ℤ) - 1 - (k : ℤ)))).sum)

/-- Maximum entry of a list (`np.max` on a nonempty array; `0` on `[]`,
a case no caller reaches). -/
def maxOf : List ℚ → ℚ
  | [] => 0
  | [a] => a
  | a :: b :: rest => max a (maxOf (b :: rest))

/-- Index of the first occurrence of the maximum entry, `np.argmax`. -/
def argmaxIdx : List ℚ → ℕ
  | [] => 0
  | [_] => 0
  | a :: b :: rest => if a < maxOf (b :: rest) then argmaxIdx (b :: rest) + 1 else 0

/-- Grayscale frame: a 2-D `np.ndarray` of pixel intensities.  The pixel
function is total; only indices below the dimensions are meaningful.  The
engine's BGR-to-gray conversion is applied identically to reference and live
frames, so frames are modelled single-channel throughout. -/
structure Frame where
  height : ℕ
  width : ℕ
  pixel : ℕ → ℕ → ℚ

/-- Geometry of a `BaseROI` (`roi.py` lines 19-27): integer position and size.
The uuid identity and the `roi_type` tag play no role in the verified
properties and are omitted. -/
structure ROIGeom where
  x : ℤ
  y : ℤ
  width : ℤ
  height : ℤ
  deriving DecidableEq, Repr

/-- Derived `end_x = x + width`. -/
def ROIGeom.endX (r : ROIGeom) : ℤ := r.x + r.width

/-- Derived `end_y = y + height`. -/
def ROIGeom.endY (r : ROIGeom) : ℤ := r.y + r.height

/-- Clamped left edge `x1 = max(0, min(self.x, w))` of `BaseROI.crop`. -/
def cropX1 (r : ROIGeom) (f : Frame) : ℤ := max 0 (min r.x (f.width : ℤ))

/-- Clamped top edge `y1 = max(0, min(self.y, h))` of `BaseROI.crop`. -/
def cropY1 (r : ROIGeom) (f : Frame) : ℤ := max 0 (min r.y (f.height : ℤ))

/-- Clamped right edge `x2 = max(0, min(self.end_x, w))` of `BaseROI.crop`. -/
def cropX2 (r : ROIGeom) (f : Frame) : ℤ := max 0 (min r.endX (f.width : ℤ))

/-- Clamped bottom edge `y2 = max(0, min(self.end_y, h))` of `BaseROI.crop`. -/
def cropY2 (r : ROIGeom) (f : Frame) : ℤ := max 0 (min r.endY (f.height : ℤ))

/-- Embedding of `BaseROI.crop` (`roi.py` lines 45-65): `None` on a missing
frame; otherwise clamp the rectangle to the image, return `None` if the
clamped rectangle is degenerate, and otherwise the submatrix
`frame[y1:y2, x1:x2]`. -/
def crop (r : ROIGeom) (frame : Option Frame) : Option Frame :=
  match frame with
  | none => none
  | some f =>
    let x1 := cropX1 r f
    let y1 := cropY1 r f
    let x2 := cropX2 r f
    let y2 := cropY2 r f
    if x2 ≤ x1 ∨ y2 ≤ y1 then none
    else some ⟨(y2 - y1).toNat, (x2 - x1).toNat,
      fun i j => f.pixel (y1.toNat + i) (x1.toNat + j)⟩

/-- Embedding of `BaseROI.contains_point`: `x ≤ px < end_x ∧ y ≤ py < end_y`. -/
def containsPoint (r : ROIGeom) (px py : ℤ) : Bool :=
  decide (r.x ≤ px) && decide (px < r.endX) && decide (r.y ≤ py) && decide (py < r.endY)

/-- OpenCV default border handling `BORDER_REFLECT_101` used by
`cv2.GaussianBlur`: indices reflect around the edge pixels without repeating
them (`... 2 1 | 0 1 2 ... n-1 | n-2 n-3 ...`).  Closed form of OpenCV's
iterated reflection: the extended sequence is periodic with period
`2 * (n - 1)`; a single-pixel axis always maps to index `0`. -/
def reflect101 (n : ℕ) (i : ℤ) : ℕ :=
  if n ≤ 1 then 0
  else
    let m := i.emod (2 * ((n : ℤ) - 1))
    if m < (n : ℤ) then m.toNat else (2 * ((n : ℤ) - 1) - m).toNat

/-- Pixel access with `BORDER_REFLECT_101` extension on both axes. -/
def pixelReflect (f : Frame) (i j : ℤ) : ℚ :=
  f.pixel (reflect101 f.height i) (reflect101 f.width j)

/-- Separable binomial kernel weight used by OpenCV for
`GaussianBlur(ksize=(5,5), sigma=0)`: `[1,4,6,4,1] / 16` (offsets `0..4`
stand for `-2..2`). -/
def gaussWeight5 : ℕ → ℚ
  | 0 => 1 / 16
  | 1 => 4 / 16
  | 2 => 6 / 16
  | 3 => 4 / 16
  | _ => 1 / 16

/-- Embedding of `cv2.GaussianBlur(gray, (5, 5), 0)`: 5x5 separable binomial
convolution with `BORDER_REFLECT_101` edges, over exact rationals. -/
def gaussianBlur5 (f : Frame) : Frame :=
  ⟨f.height, f.width, fun i j =>
    ((List.range 5).map (fun a =>
      ((List.range 5).map (fun b =>
        gaussWeight5 a * gaussWeight5 b *
          pixelReflect f ((i : ℤ) + (a : ℤ) - 2) ((j : ℤ) + (b : ℤ) - 2))).sum)).sum⟩

/-- Embedding of `VerticalStrip._extract_signal` (`roi.py` lines 217-229):
crop the strip band, convert to gray (identity on the single-channel model),
apply the 5x5 Gaussian blur, and collapse each row to its mean intensity.
Returns `none` exactly when the crop returns `none`. -/
def extractSignal (r : ROIGeom) (frame : Option Frame) : Option (List ℚ) :=
  match crop r frame with
  | none => none
  | some g =>
    let blurred := gaussianBlur5 g
    some ((List.range g.height).map (fun i =>
      ((List.range g.width).map (fun j => blurred.pixel i j)).sum / (g.width : ℚ)))

/-- Embedding of the `VerticalStrip` object state (`roi.py` lines 171-204):
full-height band at the shared `x`/`width` of its aligned ROIs, with the
stored reference signal (`None` when the capture at construction failed). -/
structure VerticalStrip where
  x : ℤ
  y : ℤ
  width : ℤ
  height : ℤ
  side : String
  alignedRois : List ROIGeom
  referenceSignal : Option (List ℚ)
  deriving DecidableEq, Repr

/-- Band geometry of a strip, as used by `self.crop` inside
`_extract_signal`. -/
def VerticalStrip.geom (s : VerticalStrip) : ROIGeom := ⟨s.x, s.y, s.width, s.height⟩

/-- Embedding of `VerticalStrip.__init__` (`roi.py` lines 178-204), in source
order: raise on an empty ROI list; raise when the ROIs disagree in `x` or
`width`; raise when no frame is supplied; otherwise build the full-height
strip (`y = 0`, `h = image_height`) and run
`compute_and_store_reference(frame)`, which stores the extracted signal when
extraction succeeds and silently leaves the reference `None` when it fails. -/
def VerticalStrip.init (alignedRois : List ROIGeom) (imageHeight : ℤ)
    (side : String) (frame : Option Frame) : Except String VerticalStrip :=
  match alignedRois with
  | [] => .error "ValueError: VerticalStrip requires AlignedROIs to work."
  | r0 :: rest =>
    if (r0 :: rest).any (fun r => r.x != r0.x || r.width != r0.width) then
      .error "ValueError: All AlignedROIs must have the same x and width for VerticalStrip."
    else
      match frame with
      | none => .error "ValueError: Frame must be provided to compute reference signal."
      | some f =>
        let geom : ROIGeom := ⟨r0.x, 0, r0.width, imageHeight⟩
        .ok ⟨geom.x, geom.y, geom.width, geom.height, side, r0 :: rest,
          extractSignal geom (some f)⟩

/-- Embedding of `VerticalStrip.measure_vertical_offset` (`roi.py` lines
231-274).  The values of `np.std` on the reference and live signals are taken
as explicit arguments `σref`, `σlive` (see `IsStd`); every theorem below
constrains them to be the standard deviations of the respective signals.
Control flow follows the source: raise when no reference is stored; return
`(0, 0)` when live extraction fails; return `(0, 0)` when either standard
deviation is zero; otherwise normalise the full cross-correlation of the
mean-subtracted signals by `σref * σlive * len(live)`, take the first index
of its maximum, and return `(peak_idx - (len(live) - 1), peak value)`. -/
def measureVerticalOffset (s : VerticalStrip) (frame : Option Frame)
    (σref σlive : ℚ) : Except String (ℚ × ℚ) :=
  match s.referenceSignal with
  | none => .error "RuntimeError: VerticalStrip not calibrated! No reference signal."
  | some ref =>
    match extractSignal s.geom frame with
    | none => .ok (0, 0)
    | some live =>
      if σref = 0 ∨ σlive = 0 then .ok (0, 0)
      else
        let corr := (correlateFull (meanSubtract live) (meanSubtract ref)).map
          (fun c => c / (σref * σlive * (live.length : ℚ)))
        let peakIdx := argmaxIdx corr
        .ok ((peakIdx : ℚ) - ((live.length : ℚ) - 1), corr.getD peakIdx 0)

/-- Embedding of `geometry.LaneDefinition`: the normalized x-axis constraint
of one film side. -/
structure LaneDefinition where
  side : String
  x : ℤ
  width : ℤ
  deriving DecidableEq, Repr

/-- Embedding of `geometry.AnchorDefinition`: the y-axis constraint of one
perforation. -/
structure AnchorDefinition where
  id : String
  laneSide : String
  y : ℤ
  height : ℤ
  deriving DecidableEq, Repr

/-- Embedding of the `CalibrationProfile` dataclass fields (`roi.py` lines
105-130): identity metadata, reference signals, optional lane geometry
per side, and anchor lists per side. -/
structure CalibrationProfile where
  id : String
  name : String
  timestamp : String
  description : String
  leftLaneSignal : List ℚ
  rightLaneSignal : List ℚ
  leftLane : Option LaneDefinition
  rightLane : Option LaneDefinition
  leftAnchors : List AnchorDefinition
  rightAnchors : List AnchorDefinition
  deriving DecidableEq, Repr

/-- Attribute names declared by the `CalibrationProfile` dataclass
(`roi.py` lines 112-130).  No other attribute is ever assigned to a profile
anywhere in the repository, so Python attribute lookup succeeds on a
`CalibrationProfile` instance exactly for these names. -/
def calibrationProfileFields : List String :=
  ["id", "name", "timestamp", "description", "left_lane_signal",
   "right_lane_signal", "left_lane", "right_lane", "left_anchors",
   "right_anchors"]

/-- Shape of the dictionary that `CalibrationProfile.to_dict` (`roi.py` lines
140-152) attempts to build: note that it carries a single `anchors` entry and
no `left_anchors`/`right_anchors` entries. -/
structure ProfileDict where
  id : String
  name : String
  timestamp : String
  description : String
  leftLaneSignal : List ℚ
  rightLaneSignal : List ℚ
  leftLane : Option LaneDefinition
  rightLane : Option LaneDefinition
  anchors : List AnchorDefinition
  deriving DecidableEq, Repr

/-- Embedding of the attribute read `self.anchors` performed by
`CalibrationProfile.to_dict` (`roi.py` line 151).  The dataclass declares no
field named `anchors` (see `calibrationProfileFields`) and no code in the
repository ever assigns one, so the lookup raises `AttributeError` on every
profile. -/
def CalibrationProfile.anchorsAttr (_p : CalibrationProfile) :
    Except String (List AnchorDefinition) :=
  if calibrationProfileFields.contains "anchors" then .ok []
  else .error "AttributeError: CalibrationProfile object has no attribute anchors"

/-- Embedding of `CalibrationProfile.to_dict` (`roi.py` lines 140-152): build
the serialized dictionary, whose `anchors` entry evaluates `self.anchors`. -/
def CalibrationProfile.toDict (p : CalibrationProfile) : Except String ProfileDict :=
  match p.anchorsAttr with
  | .error e => .error e
  | .ok anchors =>
    .ok ⟨p.id, p.name, p.timestamp, p.description, p.leftLaneSignal,
      p.rightLaneSignal, p.leftLane, p.rightLane, anchors⟩

/-- Embedding of `CalibrationProfile.from_dict` (`roi.py` lines 154-168): the
reconstruction calls `CalibrationProfile(..., anchors=...)`, but the dataclass
generated `__init__` accepts only the fields in `calibrationProfileFields`, so
the keyword `anchors` raises `TypeError` on every input dictionary. -/
def CalibrationProfile.fromDict (d : ProfileDict) : Except String CalibrationProfile :=
  if calibrationProfileFields.contains "anchors" then
    .ok ⟨d.id, d.name, d.timestamp, d.description, d.leftLaneSignal,
      d.rightLaneSignal, d.leftLane, d.rightLane, [], []⟩
  else .error "TypeError: init got an unexpected keyword argument anchors"

/-- Embedding of `VerticalStrip.generate_dataclasses` (`roi.py` lines
276-299): a `LaneDefinition` from the strip geometry plus one
`AnchorDefinition` per aligned ROI (anchor ids are uuids in the source and are
not modelled). -/
def VerticalStrip.generateDataclasses (s : VerticalStrip) :
    LaneDefinition × List AnchorDefinition :=
  (⟨s.side, s.x, s.width⟩, s.alignedRois.map (fun r => ⟨"", s.side, r.y, r.height⟩))

/-- Embedding of the `CalibrationManager` state (`roi.py` lines 301-308). -/
structure CalibrationManager where
  rawCapturedImage : Option Frame
  rawRois : List ROIGeom

/-- Embedding of `RawROI.from_points` (`roi.py` lines 89-96): normalize the
two corner points to `(min, min, abs diff, abs diff)`. -/
def fromPoints (x1 y1 x2 y2 : ℤ) : ROIGeom :=
  ⟨min x1 x2, min y1 y2, |x2 - x1|, |y2 - y1|⟩

/-- Minimum size in pixels for RawROIs to be considered valid
(`MIN_RAW_ROI_SIZE`, `roi.py` line 12). -/
def minRawRoiSize : ℤ := 5

/-- Embedding of `CalibrationManager.add_raw_roi` (`roi.py` lines 314-319):
build the ROI from the two points and append it only when both dimensions
exceed `MIN_RAW_ROI_SIZE`; otherwise return `none` and leave the state
unchanged. -/
def addRawRoi (m : CalibrationManager) (x1 y1 x2 y2 : ℤ) :
    Option ROIGeom × CalibrationManager :=
  let roi := fromPoints x1 y1 x2 y2
  if minRawRoiSize < roi.width ∧ minRawRoiSize < roi.height then
    (some roi, ⟨m.rawCapturedImage, m.rawRois ++ [roi]⟩)
  else (none, m)

/-- Key order used by `left.sort(key=lambda r: r.y)`. -/
def yLE (a b : ROIGeom) : Prop := a.y ≤ b.y

instance : DecidableRel yLE := fun a b => inferInstanceAs (Decidable (a.y ≤ b.y))

instance : IsTotal ROIGeom yLE := ⟨fun a b => le_total a.y b.y⟩

instance : IsTrans ROIGeom yLE := ⟨fun _ _ _ hab hbc => le_trans hab hbc⟩

/-- Pure core of `CalibrationManager.split_rois_by_side` (`roi.py` lines
331-359) for an image of width `W`: each ROI with `end_x ≤ mid` goes left,
otherwise each ROI with `x ≥ mid` goes right, anything else is discarded;
both sides are then sorted top-to-bottom by `y` (Python `list.sort` is
stable, as is `List.insertionSort`). -/
def splitByMid (W : ℕ) (rois : List ROIGeom) : List ROIGeom × List ROIGeom :=
  let mid : ℤ := (W : ℤ) / 2
  let left := rois.filter (fun r => decide (r.endX ≤ mid))
  let right := rois.filter (fun r => !decide (r.endX ≤ mid) && decide (mid ≤ r.x))
  (left.insertionSort yLE, right.insertionSort yLE)

/-- Embedding of `CalibrationManager.split_rois_by_side`: reads the width of
`self.raw_captured_image` (an `AttributeError` when no image was captured)
and splits with `splitByMid`. -/
def splitRoisBySide (m : CalibrationManager) :
    Except String (List ROIGeom × List ROIGeom) :=
  match m.rawCapturedImage with
  | none => .error "AttributeError: NoneType object has no attribute shape"
  | some img => .ok (splitByMid img.width m.rawRois)

/-- Embedding of the inner `align_side` of `CalibrationManager.align_raw_rois`
(`roi.py` lines 373-397): `raw_list[0]` raises `IndexError` on an empty side;
otherwise compute the shared span `[max x, min end_x)`, log (only) when its
width is not positive, and emit one AlignedROI per input with the shared
`x`/`width` and the original `y`/`height`. -/
def alignSide (rawList : List ROIGeom) : Except String (List ROIGeom) :=
  match rawList with
  | [] => .error "IndexError: list index out of range"
  | r0 :: _ =>
    let maxStart := rawList.foldl (fun acc r => max acc r.x) r0.x
    let minEnd := rawList.foldl (fun acc r => min acc r.endX) r0.endX
    let width := minEnd - maxStart
    .ok (rawList.map (fun raw => ⟨maxStart, raw.y, width, raw.height⟩))

/-- Embedding of `CalibrationManager.align_raw_rois` (`roi.py` lines 361-407):
split by side, then align each side independently. -/
def alignRawRois (m : CalibrationManager) :
    Except String (List ROIGeom × List ROIGeom) :=
  match splitRoisBySide m with
  | .error e => .error e
  | .ok (leftSide, rightSide) =>
    match alignSide leftSide with
    | .error e => .error e
    | .ok leftAligned =>
      match alignSide rightSide with
      | .error e => .error e
      | .ok rightAligned => .ok (leftAligned, rightAligned)

/-- Embedding of `CalibrationManager.generate_vertical_strips` (`roi.py`
lines 409-429): align, then build a strip per side that produced aligned
ROIs.  The source calls `compute_and_store_reference(frame)` a second time on
each fresh strip with the same frame; the recomputation stores the same
signal (or again fails and leaves `None`), so the state after it equals the
state after `VerticalStrip.init`. -/
def generateVerticalStrips (m : CalibrationManager) (frame : Frame) :
    Except String (Option VerticalStrip × Option VerticalStrip) :=
  match alignRawRois m with
  | .error e => .error e
  | .ok (leftAligned, rightAligned) =>
    match (if leftAligned.isEmpty then .ok none
           else (VerticalStrip.init leftAligned (frame.height : ℤ) "LEFT" (some frame)).map some : Except String (Option VerticalStrip)) with
    | .error e => .error e
    | .ok leftStrip =>
      match (if rightAligned.isEmpty then .ok none
             else (VerticalStrip.init rightAligned (frame.height : ℤ) "RIGHT" (some frame)).map some : Except String (Option VerticalStrip)) with
      | .error e => .error e
      | .ok rightStrip => .ok (leftStrip, rightStrip)

/-- Embedding of `CalibrationManager.generate_calibration_profile` (`roi.py`
lines 431-457): build the strips, return `None` when neither side produced
one, and otherwise fill a fresh profile (uuid and timestamp not modelled)
with each produced side's lane, signal, and anchors. -/
def generateCalibrationProfile (m : CalibrationManager) (frame : Frame) :
    Except String (Option CalibrationProfile) :=
  match generateVerticalStrips m frame with
  | .error e => .error e
  | .ok (leftStrip, rightStrip) =>
    match leftStrip, rightStrip with
    | none, none => .ok none
    | _, _ =>
      let base : CalibrationProfile := ⟨"", "", "", "", [], [], none, none, [], []⟩
      let withLeft :=
        match leftStrip with
        | none => base
        | some s =>
          let (laneDef, anchors) := s.generateDataclasses
          ⟨base.id, base.name, base.timestamp, base.description,
            s.referenceSignal.getD [], base.rightLaneSignal,
            some laneDef, base.rightLane, anchors, base.rightAnchors⟩
      let withRight :=
        match rightStrip with
        | none => withLeft
        | some s =>
          let (laneDef, anchors) := s.generateDataclasses
          ⟨withLeft.id, withLeft.name, withLeft.timestamp, withLeft.description,
            withLeft.leftLaneSignal, s.referenceSignal.getD [],
            withLeft.leftLane, some laneDef, withLeft.leftAnchors, anchors⟩
      .ok (some withRight)

/-! Helper lemmas about the numeric list operations. -/

theorem getD_le_maxOf : ∀ (l : List ℚ) (i : ℕ), i < l.length → l.getD i 0 ≤ maxOf l := by
  intro l
  induction l with
  | nil => intro i hi; simp at hi
  | cons a t ih =>
    intro i hi
    cases t with
    | nil =>
      match i, hi with
      | 0, _ => simp [maxOf]
    | cons b r =>
      match i, hi with
      | 0, _ => exact le_max_left _ _
      | i + 1, hi =>
        have : (b :: r).getD i 0 ≤ maxOf (b :: r) := ih i (by simpa using hi)
        exact le_trans (by simpa using this) (le_max_right a _)

theorem argmaxIdx_lt_length : ∀ (l : List ℚ), l ≠ [] → argmaxIdx l < l.length := by
  intro l
  induction l with
  | nil => intro h; exact absurd rfl h
  | cons a t ih =>
    intro _
    cases t with
    | nil => simp [argmaxIdx]
    | cons b r =>
      by_cases h : a < maxOf (b :: r)
      · have h1 := ih (by simp)
        simp only [argmaxIdx, if_pos h, List.length_cons] at h1 ⊢
        omega
      · simp [argmaxIdx, if_neg h]

theorem getD_argmaxIdx_eq_maxOf : ∀ (l : List ℚ), l ≠ [] → l.getD (argmaxIdx l) 0 = maxOf l := by
  intro l
  induction l with
  | nil => intro h; exact absurd rfl h
  | cons a t ih =>
    intro _
    cases t with
    | nil => simp [argmaxIdx, maxOf]
    | cons b r =>
      by_cases h : a < maxOf (b :: r)
      · have hrec := ih (by simp)
        simp only [argmaxIdx, if_pos h, maxOf, List.getD_cons_succ]
        rw [hrec, max_eq_right h.le]
      · simp only [argmaxIdx, if_neg h, maxOf, List.getD_cons_zero]
        rw [max_eq_left (not_lt.mp h)]

theorem getD_lt_maxOf_of_lt_argmaxIdx :
    ∀ (l : List ℚ) (j : ℕ), j < argmaxIdx l → l.getD j 0 < maxOf l := by
  intro l
  induction l with
  | nil => intro j hj; simp [argmaxIdx] at hj
  | cons a t ih =>
    intro j hj
    cases t with
    | nil => simp [argmaxIdx] at hj
    | cons b r =>
      by_cases h : a < maxOf (b :: r)
      · simp only [argmaxIdx, if_pos h] at hj
        have hmax : maxOf (a :: b :: r) = maxOf (b :: r) := by
          simp only [maxOf]; exact max_eq_right h.le
        match j, hj with
        | 0, _ => simpa [hmax] using h
        | j + 1, hj =>
          have := ih j (by omega)
          simpa [hmax] using this
      · simp [argmaxIdx, if_neg h] at hj

theorem correlateFull_length (a v : List ℚ) :
    (correlateFull a v).length = a.length + v.length - 1 := by
  unfold correlateFull
  rw [List.length_map, List.length_range]

theorem meanSubtract_length (l : List ℚ) : (meanSubtract l).length = l.length := by
  simp [meanSubtract]

theorem variance_nil : variance [] = 0 := by
  simp [variance]

theorem crop_none_none (r : ROIGeom) : crop r none = none := rfl

theorem crop_some_pos {r : ROIGeom} {f g : Frame} (h : crop r (some f) = some g) :
    0 < g.height ∧ 0 < g.width := by
  simp only [crop] at h
  split at h
  · exact absurd h (by simp)
  · rename_i hdeg
    push_neg at hdeg
    cases h
    constructor <;> simp <;> omega

theorem extractSignal_eq_none_iff (r : ROIGeom) (fr : Option Frame) :
    extractSignal r fr = none ↔ crop r fr = none := by
  cases hc : crop r fr <;> simp [extractSignal, hc]

theorem extractSignal_ne_nil {r : ROIGeom} {fr : Option Frame} {live : List ℚ}
    (h : extractSignal r fr = some live) : live ≠ [] := by
  cases fr with
  | none => simp [extractSignal, crop] at h
  | some f =>
    simp only [extractSignal] at h
    cases hc : crop r (some f) with
    | none => rw [hc] at h; simp at h
    | some g =>
      rw [hc] at h
      have hpos := (crop_some_pos hc).1
      cases h
      simp [List.length_map, List.length_range]
      omega

theorem IsStd.eq_zero_of_variance_eq_zero {l : List ℚ} {σ : ℚ}
    (h : IsStd l σ) (hv : variance l = 0) : σ = 0 := by
  have h2 : σ ^ 2 = 0 := h.2.trans hv
  exact pow_eq_zero_iff (n := 2) (by norm_num) |>.mp h2

theorem IsStd.ne_zero_of_variance_ne_zero {l : List ℚ} {σ : ℚ}
    (h : IsStd l σ) (hv : variance l ≠ 0) : σ ≠ 0 := by
  intro hz
  exact hv (by rw [← h.2, hz]; ring)

theorem ne_nil_of_variance_ne_zero {l : List ℚ} (hv : variance l ≠ 0) : l ≠ [] := by
  intro hz
  rw [hz] at hv
  exact hv variance_nil

/-! Counting lemmas for the side split. -/

theorem count_insertionSort (l : List ROIGeom) (r : ROIGeom) :
    (l.insertionSort yLE).count r = l.count r :=
  (List.perm_insertionSort yLE l).count_eq r

theorem count_filter_of_neg {p : ROIGeom → Bool} {r : ROIGeom} (l : List ROIGeom)
    (h : p r = false) : (l.filter p).count r = 0 := by
  rw [List.count_eq_zero]
  intro hm
  have hpr := (List.mem_filter.1 hm).2
  rw [h] at hpr
  exact Bool.noConfusion hpr

theorem count_filter_le (p : ROIGeom → Bool) (l : List ROIGeom) (r : ROIGeom) :
    (l.filter p).count r ≤ l.count r :=
  (List.filter_sublist l).count_le r

/-! Claim theorems. -/

/-- C1: the claim asserts that `from_dict ∘ to_dict` reproduces every profile.
On the code this fails for every profile: `to_dict` evaluates `self.anchors`,
an attribute the `CalibrationProfile` dataclass does not declare and that no
code ever assigns, so serialization raises `AttributeError` before producing
any dictionary (and `from_dict` would in turn raise `TypeError`, since it
passes the unknown keyword `anchors` to the generated constructor; the
left/right anchor lists are moreover absent from the intended dictionary).
No round trip can reproduce any field. -/
theorem c1_profile_roundtrip_code_bug (p : CalibrationProfile) :
    p.toDict = .error "AttributeError: CalibrationProfile object has no attribute anchors" ∧
    p.toDict.bind CalibrationProfile.fromDict =
      .error "AttributeError: CalibrationProfile object has no attribute anchors" := by
  exact ⟨rfl, rfl⟩

/-- Blank profile used to exhibit `c1_profile_roundtrip_code_bug` at a
concrete input. -/
def blankProfile : CalibrationProfile := ⟨"", "", "", "", [], [], none, none, [], []⟩

/-- C1 witness: the serialization failure evaluated on a concrete profile. -/
theorem c1_profile_roundtrip_code_bug_witness :
    blankProfile.toDict =
      .error "AttributeError: CalibrationProfile object has no attribute anchors" ∧
    blankProfile.toDict.bind CalibrationProfile.fromDict =
      .error "AttributeError: CalibrationProfile object has no attribute anchors" :=
  c1_profile_roundtrip_code_bug blankProfile

/-- Captured image and live frame of the C2 end-to-end scenario: 1920x1080,
midpoint `1920 // 2 = 960`. -/
def c2Frame : Frame := ⟨1080, 1920, fun _ _ => 0⟩

/-- Manager of the C2 end-to-end scenario: three RawROIs at
`x ∈ [100, 104, 102]`, each `width = 50`, `height = 30`, all entirely left of
the midpoint `960`. -/
def c2Manager : CalibrationManager :=
  ⟨some c2Frame, [⟨100, 0, 50, 30⟩, ⟨104, 50, 50, 30⟩, ⟨102, 100, 50, 30⟩]⟩

/-- C2: the claim asserts the scenario yields (without raising) a profile
aligned to `x = 104`, `width = 46` with a left lane only.  The alignment
itself does produce the claimed shared `x = 104`, `width = 46` (second
conjunct), but `generate_calibration_profile` raises instead of returning:
with every ROI on the left side, the right side list is empty and
`align_side` evaluates `raw_list[0].x` on it, an `IndexError` (first
conjunct). -/
theorem c2_generate_profile_code_bug :
    generateCalibrationProfile c2Manager c2Frame =
      .error "IndexError: list index out of range" ∧
    alignSide (splitByMid 1920 c2Manager.rawRois).1 =
      .ok [⟨104, 0, 46, 30⟩, ⟨104, 50, 46, 30⟩, ⟨104, 100, 46, 30⟩] := by
  exact ⟨rfl, rfl⟩

/-- Manager exhibiting C3: image width 40 (midpoint 20); the two left-side
ROIs span `[0, 8)` and `[12, 20)` with no common x-intersection, while the
two right-side ROIs span `[30, 38)` and `[32, 40)` and intersect on
`[32, 38)`. -/
def c3Manager : CalibrationManager :=
  ⟨some ⟨60, 40, fun _ _ => 0⟩, [⟨0, 0, 8, 8⟩, ⟨12, 0, 8, 8⟩, ⟨30, 0, 8, 8⟩, ⟨32, 0, 8, 8⟩]⟩

/-- C3: the claim asserts that a side with no common x-intersection
contributes no AlignedROIs.  On the code the failure is only logged: the
left side here (shared width `8 - 12 = -4 ≤ 0`) still contributes one
AlignedROI per input, each with the non-positive width `-4`, while the right
side is aligned normally (that much of the claim, independence of the sides,
does hold). -/
theorem c3_align_failure_code_bug :
    alignRawRois c3Manager =
      .ok ([⟨12, 0, -4, 8⟩, ⟨12, 0, -4, 8⟩], [⟨32, 0, 6, 8⟩, ⟨32, 0, 6, 8⟩]) := by
  exact rfl

/-- C8: for every ROI and every frame, `crop` is total (the embedding is a
total function, mirroring that the source only indexes with clamped bounds),
returns `none` exactly when the clamped rectangle has zero or negative
extent, and every pixel of a returned crop is read from inside
`[0, W) x [0, H)` of the source frame. -/
theorem c8_crop_clamped_safe (r : ROIGeom) (f : Frame) :
    (crop r (some f) = none ↔
      (cropX2 r f ≤ cropX1 r f ∨ cropY2 r f ≤ cropY1 r f)) ∧
    ∀ g : Frame, crop r (some f) = some g →
      ∀ i j : ℕ, i < g.height → j < g.width →
        (cropY1 r f).toNat + i < f.height ∧ (cropX1 r f).toNat + j < f.width ∧
        g.pixel i j = f.pixel ((cropY1 r f).toNat + i) ((cropX1 r f).toNat + j) := by
  have hx1 : 0 ≤ cropX1 r f := le_max_left _ _
  have hy1 : 0 ≤ cropY1 r f := le_max_left _ _
  have hx2 : cropX2 r f ≤ (f.width : ℤ) :=
    max_le (Int.ofNat_nonneg _) (min_le_right _ _)
  have hy2 : cropY2 r f ≤ (f.height : ℤ) :=
    max_le (Int.ofNat_nonneg _) (min_le_right _ _)
  constructor
  · by_cases hdeg : cropX2 r f ≤ cropX1 r f ∨ cropY2 r f ≤ cropY1 r f <;>
      simp [crop, hdeg]
  · intro g hg i j hi hj
    simp only [crop] at hg
    split at hg
    · exact absurd hg (by simp)
    · injection hg with hg
      subst hg
      simp only at hi hj ⊢
      refine ⟨by omega, by omega, by trivial⟩

/-- ROI of the C8 witness: it hangs off every edge of `c8Frame`. -/
def c8Roi : ROIGeom := ⟨-3, -2, 10, 9⟩

/-- Frame of the C8 witness: 6 wide, 5 high, with distinct pixel values. -/
def c8Frame : Frame := ⟨5, 6, fun i j => (i : ℚ) * 10 + j⟩

/-- C8 witness: the clamped-crop guarantees evaluated on the concrete
out-of-range ROI `c8Roi` against `c8Frame`. -/
theorem c8_crop_clamped_safe_witness :
    (crop c8Roi (some c8Frame) = none ↔
      (cropX2 c8Roi c8Frame ≤ cropX1 c8Roi c8Frame ∨
       cropY2 c8Roi c8Frame ≤ cropY1 c8Roi c8Frame)) ∧
    ∀ g : Frame, crop c8Roi (some c8Frame) = some g →
      ∀ i j : ℕ, i < g.height → j < g.width →
        (cropY1 c8Roi c8Frame).toNat + i < c8Frame.height ∧
        (cropX1 c8Roi c8Frame).toNat + j < c8Frame.width ∧
        g.pixel i j =
          c8Frame.pixel ((cropY1 c8Roi c8Frame).toNat + i)
            ((cropX1 c8Roi c8Frame).toNat + j) :=
  c8_crop_clamped_safe c8Roi c8Frame

/-- C9: `from_points` is symmetric under swapping the two corner points and
always yields non-negative dimensions, and `add_raw_roi` rejects the
rectangle, returning no ROI and leaving the manager unchanged, exactly when
either dimension is at most `MIN_RAW_ROI_SIZE = 5`. -/
theorem c9_from_points_normalizes (x1 y1 x2 y2 : ℤ) (m : CalibrationManager) :
    fromPoints x1 y1 x2 y2 = fromPoints x2 y2 x1 y1 ∧
    0 ≤ (fromPoints x1 y1 x2 y2).width ∧
    0 ≤ (fromPoints x1 y1 x2 y2).height ∧
    (addRawRoi m x1 y1 x2 y2 = (none, m) ↔
      ((fromPoints x1 y1 x2 y2).width ≤ minRawRoiSize ∨
       (fromPoints x1 y1 x2 y2).height ≤ minRawRoiSize)) := by
  refine ⟨?_, abs_nonneg _, abs_nonneg _, ?_⟩
  · simp [fromPoints, min_comm, abs_sub_comm]
  · by_cases hcond : minRawRoiSize < (fromPoints x1 y1 x2 y2).width ∧
        minRawRoiSize < (fromPoints x1 y1 x2 y2).height
    · simp only [addRawRoi, if_pos hcond]
      constructor
      · intro hEq
        exact absurd (congrArg Prod.fst hEq) (by simp)
      · intro hle
        rcases hle with h | h
        · exact absurd hcond.1 (not_lt.mpr h)
        · exact absurd hcond.2 (not_lt.mpr h)
    · simp only [addRawRoi, if_neg hcond]
      rw [not_and_or, not_lt, not_lt] at hcond
      simp [hcond]

/-- C9 witness: a 4x4 rectangle drawn right-to-left is rejected without
mutating the manager, symmetrically in the two corners. -/
theorem c9_from_points_normalizes_witness :
    fromPoints 10 10 6 6 = fromPoints 6 6 10 10 ∧
    0 ≤ (fromPoints 10 10 6 6).width ∧
    0 ≤ (fromPoints 10 10 6 6).height ∧
    (addRawRoi ⟨none, []⟩ 10 10 6 6 = (none, ⟨none, []⟩) ↔
      ((fromPoints 10 10 6 6).width ≤ minRawRoiSize ∨
       (fromPoints 10 10 6 6).height ≤ minRawRoiSize)) :=
  c9_from_points_normalizes 10 10 6 6 ⟨none, []⟩

/-- C7: for every image width `W` (midpoint `W // 2`) and every list of raw
ROIs (which the manager only ever populates with ROIs of positive width, via
`add_raw_roi`), the side split puts each ROI with `end_x ≤ mid` in the left
output with its full multiplicity and never in the right output, each ROI
with `x ≥ mid` in the right output and never in the left, discards ROIs that
straddle the midpoint, never emits an ROI more often than it occurs in the
input, and returns both sides sorted by non-decreasing `y`. -/
theorem c7_split_rois_by_side (W : ℕ) (rois : List ROIGeom)
    (hw : ∀ r ∈ rois, 0 < r.width) :
    (∀ r : ROIGeom, r.endX ≤ (W : ℤ) / 2 →
      (splitByMid W rois).1.count r = rois.count r ∧ (splitByMid W rois).2.count r = 0) ∧
    (∀ r : ROIGeom, (W : ℤ) / 2 ≤ r.x →
      (splitByMid W rois).2.count r = rois.count r ∧ (splitByMid W rois).1.count r = 0) ∧
    (∀ r : ROIGeom, r.x < (W : ℤ) / 2 → (W : ℤ) / 2 < r.endX →
      (splitByMid W rois).1.count r = 0 ∧ (splitByMid W rois).2.count r = 0) ∧
    (∀ r : ROIGeom,
      (splitByMid W rois).1.count r + (splitByMid W rois).2.count r ≤ rois.count r) ∧
    List.Sorted yLE (splitByMid W rois).1 ∧ List.Sorted yLE (splitByMid W rois).2 := by
  have hL : ∀ r : ROIGeom, (splitByMid W rois).1.count r =
      (rois.filter (fun r => decide (r.endX ≤ (W : ℤ) / 2))).count r := by
    intro r
    exact count_insertionSort _ r
  have hR : ∀ r : ROIGeom, (splitByMid W rois).2.count r =
      (rois.filter
        (fun r => !decide (r.endX ≤ (W : ℤ) / 2) && decide ((W : ℤ) / 2 ≤ r.x))).count r := by
    intro r
    exact count_insertionSort _ r
  have hzero : ∀ r : ROIGeom, r.endX ≤ (W : ℤ) / 2 → (W : ℤ) / 2 ≤ r.x →
      rois.count r = 0 := by
    intro r hend hx
    by_contra hne
    have hmem : r ∈ rois := List.count_pos_iff.1 (Nat.pos_of_ne_zero hne)
    have := hw r hmem
    have : r.x + r.width ≤ (W : ℤ) / 2 := hend
    omega
  refine ⟨?_, ?_, ?_, ?_, ?_, ?_⟩
  · intro r hend
    constructor
    · rw [hL r, List.count_filter (by simpa using hend)]
    · by_cases hx : (W : ℤ) / 2 ≤ r.x
      · rw [hR r]
        have h1 := count_filter_le
          (fun r => !decide (r.endX ≤ (W : ℤ) / 2) && decide ((W : ℤ) / 2 ≤ r.x)) rois r
        have h0 := hzero r hend hx
        omega
      · rw [hR r, count_filter_of_neg]
        simp [hend, hx]
  · intro r hx
    constructor
    · by_cases hend : r.endX ≤ (W : ℤ) / 2
      · have h0 := hzero r hend hx
        have h1 : (splitByMid W rois).2.count r ≤ rois.count r := by
          rw [hR r]; exact count_filter_le _ _ _
        omega
      · rw [hR r, List.count_filter (by simp [hend, hx])]
    · by_cases hend : r.endX ≤ (W : ℤ) / 2
      · have h0 := hzero r hend hx
        have h1 : (splitByMid W rois).1.count r ≤ rois.count r := by
          rw [hL r]; exact count_filter_le _ _ _
        omega
      · rw [hL r, count_filter_of_neg]
        simpa using hend
  · intro r hx hend
    constructor
    · rw [hL r, count_filter_of_neg]
      simpa using not_le.mpr hend
    · rw [hR r, count_filter_of_neg]
      simp [not_le.mpr hx]
  · intro r
    by_cases hend : r.endX ≤ (W : ℤ) / 2
    · have h2 : (splitByMid W rois).2.count r = 0 := by
        by_cases hx : (W : ℤ) / 2 ≤ r.x
        · have h0 := hzero r hend hx
          have h1 : (splitByMid W rois).2.count r ≤ rois.count r := by
            rw [hR r]; exact count_filter_le _ _ _
          omega
        · rw [hR r, count_filter_of_neg]
          simp [hend, hx]
      have h1 : (splitByMid W rois).1.count r ≤ rois.count r := by
        rw [hL r]; exact count_filter_le _ _ _
      omega
    · have h1 : (splitByMid W rois).1.count r = 0 := by
        rw [hL r, count_filter_of_neg]
        simpa using hend
      have h2 : (splitByMid W rois).2.count r ≤ rois.count r := by
        rw [hR r]; exact count_filter_le _ _ _
      omega
  · exact List.sorted_insertionSort yLE _
  · exact List.sorted_insertionSort yLE _

/-- Raw ROIs of the C7 witness against image width 20 (midpoint 10): one on
the right, two on the left drawn out of vertical order, and one straddling
the midpoint. -/
def c7Rois : List ROIGeom := [⟨12, 5, 6, 7⟩, ⟨0, 9, 6, 7⟩, ⟨2, 1, 6, 7⟩, ⟨8, 0, 6, 7⟩]

/-- C7 witness: the split guarantees applied to the concrete `c7Rois`. -/
theorem c7_split_rois_by_side_witness :
    (∀ r ∈ c7Rois, 0 < r.width) ∧
    ((∀ r : ROIGeom, r.endX ≤ (20 : ℤ) / 2 →
      (splitByMid 20 c7Rois).1.count r = c7Rois.count r ∧
        (splitByMid 20 c7Rois).2.count r = 0) ∧
    (∀ r : ROIGeom, (20 : ℤ) / 2 ≤ r.x →
      (splitByMid 20 c7Rois).2.count r = c7Rois.count r ∧
        (splitByMid 20 c7Rois).1.count r = 0) ∧
    (∀ r : ROIGeom, r.x < (20 : ℤ) / 2 → (20 : ℤ) / 2 < r.endX →
      (splitByMid 20 c7Rois).1.count r = 0 ∧ (splitByMid 20 c7Rois).2.count r = 0) ∧
    (∀ r : ROIGeom,
      (splitByMid 20 c7Rois).1.count r + (splitByMid 20 c7Rois).2.count r ≤
        c7Rois.count r) ∧
    List.Sorted yLE (splitByMid 20 c7Rois).1 ∧
    List.Sorted yLE (splitByMid 20 c7Rois).2) :=
  ⟨by decide, by
    have h := c7_split_rois_by_side 20 c7Rois (by decide)
    push_cast at h ⊢
    exact h⟩

/-- C4 counterexample: the claim asserts that every `VerticalStrip` returned
without raising has a stored reference signal.  A consistent, non-empty ROI
list with a supplied frame that is narrower than the strip band (width 50,
strip at `x = 100`) passes all three constructor checks, the reference
capture silently fails (`compute_and_store_reference` returns `False`), and
the constructor returns a strip whose reference signal is absent. -/
theorem c4_strip_reference_counterexample :
    VerticalStrip.init [⟨100, 0, 46, 30⟩] 30 "LEFT" (some ⟨30, 50, fun _ _ => 0⟩) =
      .ok ⟨100, 0, 46, 30, "LEFT", [⟨100, 0, 46, 30⟩], none⟩ := by
  exact rfl

/-- C4 (amended): construction raises on an empty AlignedROI list, on ROIs
inconsistent in `x`/`width`, and on a missing frame; for every other input it
returns a strip whose stored reference signal is the result of extracting the
band from the frame — present exactly when the clamped crop of the band
against the frame is non-degenerate, and absent otherwise. -/
theorem c4_strip_reference (r0 : ROIGeom) (rest : List ROIGeom) (h : ℤ)
    (side : String) (f : Frame) (fr : Option Frame) :
    (∃ e, VerticalStrip.init [] h side fr = .error e) ∧
    (∃ e, VerticalStrip.init (r0 :: rest) h side none = .error e) ∧
    ((∃ r1 ∈ r0 :: rest, r1.x ≠ r0.x ∨ r1.width ≠ r0.width) →
      ∃ e, VerticalStrip.init (r0 :: rest) h side (some f) = .error e) ∧
    ((∀ r1 ∈ r0 :: rest, r1.x = r0.x ∧ r1.width = r0.width) →
      ∃ s, VerticalStrip.init (r0 :: rest) h side (some f) = .ok s ∧
        s.referenceSignal = extractSignal ⟨r0.x, 0, r0.width, h⟩ (some f) ∧
        (s.referenceSignal = none ↔ crop ⟨r0.x, 0, r0.width, h⟩ (some f) = none)) := by
  refine ⟨⟨_, rfl⟩, ?_, ?_, ?_⟩
  · simp only [VerticalStrip.init]
    by_cases hany : (r0 :: rest).any (fun r => r.x != r0.x || r.width != r0.width)
    · rw [if_pos hany]
      exact ⟨_, rfl⟩
    · rw [if_neg hany]
      exact ⟨_, rfl⟩
  · intro hbad
    obtain ⟨r1, hm, hne⟩ := hbad
    have hany : (r0 :: rest).any (fun r => r.x != r0.x || r.width != r0.width) := by
      rw [List.any_eq_true]
      refine ⟨r1, hm, ?_⟩
      rcases hne with hne | hne <;> simp [hne]
    simp only [VerticalStrip.init, if_pos hany]
    exact ⟨_, rfl⟩
  · intro hcons
    have hany : (r0 :: rest).any (fun r => r.x != r0.x || r.width != r0.width) = false := by
      rw [List.any_eq_false]
      intro r1 hm
      obtain ⟨hx, hwid⟩ := hcons r1 hm
      simp [hx, hwid]
    refine ⟨⟨r0.x, 0, r0.width, h, side, r0 :: rest,
      extractSignal ⟨r0.x, 0, r0.width, h⟩ (some f)⟩, ?_, rfl, extractSignal_eq_none_iff _ _⟩
    simp only [VerticalStrip.init, hany, Bool.false_eq_true, if_false]

/-- C4 witness: the amended construction contract applied to one consistent
aligned ROI over a frame the band does intersect; the inconsistency branch is
exercised with a second ROI at a different `x`. -/
theorem c4_strip_reference_witness :
    ((∃ e, VerticalStrip.init [] 4 "LEFT" (some ⟨4, 1, fun _ _ => 3⟩) = .error e) ∧
     (∃ e, VerticalStrip.init [⟨0, 0, 1, 4⟩] 4 "LEFT" none = .error e) ∧
     ((∃ r1 ∈ [⟨0, 0, 1, 4⟩], ROIGeom.x r1 ≠ 0 ∨ ROIGeom.width r1 ≠ 1) →
       ∃ e, VerticalStrip.init [⟨0, 0, 1, 4⟩] 4 "LEFT" (some ⟨4, 1, fun _ _ => 3⟩) = .error e) ∧
     ((∀ r1 ∈ [⟨0, 0, 1, 4⟩], ROIGeom.x r1 = 0 ∧ ROIGeom.width r1 = 1) →
       ∃ s, VerticalStrip.init [⟨0, 0, 1, 4⟩] 4 "LEFT" (some ⟨4, 1, fun _ _ => 3⟩) = .ok s ∧
         s.referenceSignal = extractSignal ⟨0, 0, 1, 4⟩ (some ⟨4, 1, fun _ _ => 3⟩) ∧
         (s.referenceSignal = none ↔ crop ⟨0, 0, 1, 4⟩ (some ⟨4, 1, fun _ _ => 3⟩) = none))) ∧
    (crop ⟨0, 0, 1, 4⟩ (some ⟨4, 1, fun _ _ => 3⟩)).isSome = true := by
  constructor
  · exact c4_strip_reference ⟨0, 0, 1, 4⟩ [] 4 "LEFT" ⟨4, 1, fun _ _ => 3⟩
      (some ⟨4, 1, fun _ _ => 3⟩)
  · rfl

/-- C5: for every calibrated strip and every frame whose extracted live
signal and stored reference signal both have nonzero standard deviation,
`measure_vertical_offset` returns `(shift, peak)` where the correlation
array is the full cross-correlation of the mean-subtracted signals divided
by `ref_std * live_std * len(live)`, `peak` is its maximum value (attained,
and an upper bound of every entry), and `shift = i - (len(live) - 1)` for
`i` the first index attaining the maximum (`np.argmax`). -/
theorem c5_measure_vertical_offset (s : VerticalStrip) (frame : Option Frame)
    (ref live : List ℚ) (σr σl : ℚ)
    (href : s.referenceSignal = some ref)
    (hlive : extractSignal s.geom frame = some live)
    (hσr : IsStd ref σr) (hσl : IsStd live σl)
    (hvr : variance ref ≠ 0) (hvl : variance live ≠ 0) :
    ∃ corr : List ℚ, ∃ i : ℕ,
      corr = (correlateFull (meanSubtract live) (meanSubtract ref)).map
        (fun c => c / (σr * σl * (live.length : ℚ))) ∧
      i < corr.length ∧
      measureVerticalOffset s frame σr σl =
        .ok ((i : ℚ) - ((live.length : ℚ) - 1), corr.getD i 0) ∧
      (∀ j, j < corr.length → corr.getD j 0 ≤ corr.getD i 0) ∧
      (∀ j, j < i → corr.getD j 0 < corr.getD i 0) := by
  have hσr0 : σr ≠ 0 := hσr.ne_zero_of_variance_ne_zero hvr
  have hσl0 : σl ≠ 0 := hσl.ne_zero_of_variance_ne_zero hvl
  set corr := (correlateFull (meanSubtract live) (meanSubtract ref)).map
    (fun c => c / (σr * σl * (live.length : ℚ))) with hcorr
  have hlen : corr.length = live.length + ref.length - 1 := by
    rw [hcorr, List.length_map, correlateFull_length, meanSubtract_length,
      meanSubtract_length]
  have hlive_ne : live ≠ [] := extractSignal_ne_nil hlive
  have href_ne : ref ≠ [] := ne_nil_of_variance_ne_zero hvr
  have hpos : 0 < corr.length := by
    have h1 : 0 < live.length := List.length_pos.mpr hlive_ne
    have h2 : 0 < ref.length := List.length_pos.mpr href_ne
    omega
  have hne : corr ≠ [] := List.length_pos.mp hpos
  refine ⟨corr, argmaxIdx corr, rfl, argmaxIdx_lt_length corr hne, ?_, ?_, ?_⟩
  · simp only [measureVerticalOffset, href, hlive, if_neg (by tauto : ¬(σr = 0 ∨ σl = 0))]
  · intro j hj
    rw [getD_argmaxIdx_eq_maxOf corr hne]
    exact getD_le_maxOf corr j hj
  · intro j hj
    rw [getD_argmaxIdx_eq_maxOf corr hne]
    exact getD_lt_maxOf_of_lt_argmaxIdx corr j hj

/-- Frame of the C5/C6 witnesses: one column of four rows with intensities
`0, 16, 16, 0`. -/
def c5Frame : Frame := ⟨4, 1, fun i _ => if i = 1 ∨ i = 2 then 16 else 0⟩

/-- Calibrated strip of the C5 witness: band `x = 0`, `width = 1`,
`height = 4`, with stored reference signal `[0, 2]`. -/
def c5Strip : VerticalStrip := ⟨0, 0, 1, 4, "LEFT", [⟨0, 0, 1, 4⟩], some [0, 2]⟩

/-! Literal-evaluation lemmas used to run the signal pipeline on the witness
frame (rational arithmetic does not reduce definitionally, so the evaluation
goes through `simp`/`norm_num`). -/

theorem range_one_eval : List.range 1 = [0] := rfl

theorem range_four_eval : List.range 4 = [0, 1, 2, 3] := rfl

theorem range_five_eval : List.range 5 = [0, 1, 2, 3, 4] := rfl

theorem toNat_two_eval : (2 : ℤ).toNat = 2 := rfl

theorem toNat_three_eval : (3 : ℤ).toNat = 3 := rfl

/-- Crop of the witness band against `c5Frame`: the whole frame. -/
def c5Crop : Frame := ⟨4, 1, fun i j => c5Frame.pixel (0 + i) (0 + j)⟩

theorem c5_crop_eval : crop ⟨0, 0, 1, 4⟩ (some c5Frame) = some c5Crop := rfl

theorem c5_crop_height : c5Crop.height = 4 := rfl

theorem c5_crop_width : c5Crop.width = 1 := rfl

/-- Signal extracted from `c5Frame` by the witness band: the 5-tap binomial
blur of the column `0, 16, 16, 0` with reflected borders, row-collapsed. -/
theorem c5_live_eval :
    extractSignal ⟨0, 0, 1, 4⟩ (some c5Frame) = some [10, 11, 11, 10] := by
  simp only [extractSignal, c5_crop_eval, c5_crop_height, c5_crop_width,
    range_one_eval, range_four_eval, List.map_cons, List.map_nil,
    List.sum_cons, List.sum_nil, Option.some.injEq, List.cons.injEq, and_true]
  norm_num [gaussianBlur5, pixelReflect, reflect101, gaussWeight5, c5Crop,
    c5Frame, range_five_eval, toNat_two_eval, toNat_three_eval]

theorem c5_ref_std : IsStd [0, 2] 1 := by
  constructor
  · norm_num
  · norm_num [variance, mean]

theorem c5_live_std : IsStd [10, 11, 11, 10] (1 / 2) := by
  constructor
  · norm_num
  · norm_num [variance, mean]

/-- C5 witness: the offset-measurement contract applied to the concrete
calibrated strip `c5Strip` against `c5Frame` (live signal `[10, 11, 11, 10]`,
reference `[0, 2]`, standard deviations `1/2` and `1`). -/
theorem c5_measure_vertical_offset_witness :
    (IsStd [0, 2] 1 ∧ IsStd [10, 11, 11, 10] (1 / 2) ∧
      variance [0, 2] ≠ 0 ∧ variance [10, 11, 11, 10] ≠ 0) ∧
    (∃ corr : List ℚ, ∃ i : ℕ,
      corr = (correlateFull (meanSubtract [10, 11, 11, 10]) (meanSubtract [0, 2])).map
        (fun c => c / (1 * (1 / 2) * (([10, 11, 11, 10] : List ℚ).length : ℚ))) ∧
      i < corr.length ∧
      measureVerticalOffset c5Strip (some c5Frame) 1 (1 / 2) =
        .ok ((i : ℚ) - ((([10, 11, 11, 10] : List ℚ).length : ℚ) - 1), corr.getD i 0) ∧
      (∀ j, j < corr.length → corr.getD j 0 ≤ corr.getD i 0) ∧
      (∀ j, j < i → corr.getD j 0 < corr.getD i 0)) :=
  ⟨⟨c5_ref_std, c5_live_std, by norm_num [variance, mean], by norm_num [variance, mean]⟩,
    c5_measure_vertical_offset c5Strip (some c5Frame) [0, 2] [10, 11, 11, 10] 1 (1 / 2)
      rfl c5_live_eval c5_ref_std c5_live_std
      (by norm_num [variance, mean]) (by norm_num [variance, mean])⟩

/-- C6: for every calibrated strip and every frame from which a live signal
is extracted, if the standard deviation of either the reference or the live
signal is zero (equivalently, since a standard deviation is the nonnegative
root of the variance: if either variance is zero), `measure_vertical_offset`
returns exactly `(0, 0)`; the embedding is a total function, so no division
by zero or exception occurs. -/
theorem c6_zero_std_guard (s : VerticalStrip) (frame : Option Frame)
    (ref live : List ℚ) (σr σl : ℚ)
    (href : s.referenceSignal = some ref)
    (hlive : extractSignal s.geom frame = some live)
    (hσr : IsStd ref σr) (hσl : IsStd live σl)
    (hz : variance ref = 0 ∨ variance live = 0) :
    measureVerticalOffset s frame σr σl = .ok (0, 0) := by
  have h0 : σr = 0 ∨ σl = 0 := by
    rcases hz with hz | hz
    · exact Or.inl (hσr.eq_zero_of_variance_eq_zero hz)
    · exact Or.inr (hσl.eq_zero_of_variance_eq_zero hz)
  simp only [measureVerticalOffset, href, hlive, if_pos h0]

/-- Strip of the C6 witness: same band as `c5Strip` but calibrated with the
flat reference signal `[3, 3]` (standard deviation zero). -/
def c6Strip : VerticalStrip := ⟨0, 0, 1, 4, "LEFT", [⟨0, 0, 1, 4⟩], some [3, 3]⟩

/-- C6 witness: the flat-signal guard evaluated on the concrete strip
`c6Strip` (flat reference, zero standard deviation) against `c5Frame`. -/
theorem c6_zero_std_guard_witness :
    (IsStd [3, 3] 0 ∧ IsStd [10, 11, 11, 10] (1 / 2) ∧ variance [3, 3] = 0) ∧
    measureVerticalOffset c6Strip (some c5Frame) 0 (1 / 2) = .ok (0, 0) :=
  ⟨⟨⟨le_refl 0, by norm_num [variance, mean]⟩, c5_live_std, by norm_num [variance, mean]⟩,
    c6_zero_std_guard c6Strip (some c5Frame) [3, 3] [10, 11, 11, 10] 0 (1 / 2)
      rfl c5_live_eval ⟨le_refl 0, by norm_num [variance, mean]⟩ c5_live_std
      (Or.inl (by norm_num [variance, mean]))⟩

/-- C10: for every strip whose reference signal is present, if live signal
extraction fails — the frame is absent, or the strip band's clamped crop
against the frame degenerates — `measure_vertical_offset` returns exactly
`(0, 0)` (for any standard-deviation inputs) instead of correlating. -/
theorem c10_extraction_failure_guard (s : VerticalStrip) (frame : Option Frame)
    (ref : List ℚ) (σr σl : ℚ)
    (href : s.referenceSignal = some ref)
    (hfail : frame = none ∨ crop s.geom frame = none) :
    measureVerticalOffset s frame σr σl = .ok (0, 0) := by
  have hext : extractSignal s.geom frame = none := by
    rw [extractSignal_eq_none_iff]
    rcases hfail with h | h
    · rw [h]
      rfl
    · exact h
  simp only [measureVerticalOffset, href, hext]

/-- C10 witness: the extraction-failure guard evaluated on the calibrated
strip `c5Strip` with no frame supplied. -/
theorem c10_extraction_failure_guard_witness :
    c5Strip.referenceSignal = some [0, 2] ∧
    measureVerticalOffset c5Strip none 1 (1 / 2) = .ok (0, 0) :=
  ⟨rfl, c10_extraction_failure_guard c5Strip none [0, 2] 1 (1 / 2) rfl (Or.inl rfl)⟩

end PPSCDA
